import Mathlib

/-!
Verification of the NSFleet booking engine (conflict detection, booking-code
generation, working-day calculation, reservation state machine, statistics)
against a shallow embedding of the TypeScript source.

Conventions of the embedding:
* Timestamps (`Date` values) are modelled as `Int` (milliseconds since epoch,
  or any common linear time scale); SQL / JS comparisons on them are the
  integer comparisons.
* Database rows are Lean structures; a table is a `List` of rows; a SQL
  `SELECT ... WHERE p` is `List.filter p`; `UPDATE ... WHERE id = x` is a
  `List.map` that rewrites the matching row.
* Nullable columns are `Option` values.  SQL `col = v` on a nullable column
  is `row.col == some v` (NULL compares false).
* Booking codes are JS strings of ASCII characters, modelled as `List Char`;
  `ORDER BY booking_id DESC LIMIT 1` is the lexicographic maximum, `LIKE 'YY%'`
  is a prefix test, `slice(2)` is `List.drop 2`.
* Free-text columns never read by the verified logic (applicant name, email,
  destination, purpose, notes, passenger info) are omitted from the row model.
-/

/-- A row of the `bookings` table (shared/schema.ts), restricted to the
columns the verified logic reads or writes.  `status` is kept as the raw
string the code compares against (`'pending' | 'approved' | 'rejected' |
'dibatalkan'` in the pg enum). -/
structure Booking where
  id : String
  bookingId : List Char
  userId : String
  departureDate : Int
  returnDate : Int
  status : String
  driverId : Option String
  vehicleId : Option String
  driverInstruction : Option String
  rejectionReason : Option String
  submissionDate : Int
  processedDate : Option Int
  modifiedDate : Option Int
  processedBy : Option String
deriving DecidableEq, Repr

/-- A row of the `vehicles` table, restricted to the columns read here. -/
structure Vehicle where
  id : String
  isActive : Bool
deriving DecidableEq, Repr

/-- The temporal condition of `DatabaseStorage.checkBookingConflicts`
(storage.ts): `bookings.departureDate < returnDate AND departureDate <
bookings.returnDate` — strict half-open interval overlap. -/
def overlapsB (departureDate returnDate : Int) (b : Booking) : Bool :=
  decide (b.departureDate < returnDate) && decide (departureDate < b.returnDate)

/-- The `bookings.id != excludeBookingId` condition, pushed only when an
exclusion id is supplied. -/
def notExcludedB (excludeBookingId : Option String) (b : Booking) : Bool :=
  match excludeBookingId with
  | some e => b.id != e
  | none => true

/-- The resource condition of `checkBookingConflicts` (storage.ts): the OR of
`eq(bookings.driverId, driverId)` / `eq(bookings.vehicleId, vehicleId)`,
each disjunct present only when that resource was supplied. -/
def resourceMatchB (driverId vehicleId : Option String) (b : Booking) : Bool :=
  (match driverId with | some d => b.driverId == some d | none => false) ||
  (match vehicleId with | some v => b.vehicleId == some v | none => false)

/-- Model of `DatabaseStorage.checkBookingConflicts` (storage.ts, current revision):
approved status AND strict overlap AND optional exclusion AND the resource
OR; if neither resource is specified the function returns `[]` before
querying. -/
def checkBookingConflicts (departureDate returnDate : Int)
    (driverId vehicleId : Option String) (excludeBookingId : Option String)
    (bs : List Booking) : List Booking :=
  if driverId.isNone && vehicleId.isNone then []
  else
    bs.filter (fun b =>
      (b.status == "approved")
      && overlapsB departureDate returnDate b
      && notExcludedB excludeBookingId b
      && resourceMatchB driverId vehicleId b)

/-- Model of `DatabaseStorage.checkBookingConflicts`, earlier revision (the copy kept
in emailService.ts): coarse bounding-box overlap with closed (`>=`/`<=`)
comparisons, and each supplied resource is required to match (conditions are
ANDed, no OR and no early empty return). -/
def checkBookingConflictsOld (departureDate returnDate : Int)
    (driverId vehicleId : Option String) (excludeBookingId : Option String)
    (bs : List Booking) : List Booking :=
  bs.filter (fun b =>
    (b.status == "approved")
    && ((decide (departureDate ≤ b.departureDate) && decide (b.departureDate ≤ returnDate))
        || (decide (departureDate ≤ b.returnDate) && decide (b.returnDate ≤ returnDate))
        || (decide (b.departureDate ≤ departureDate) && decide (b.returnDate ≥ returnDate)))
    && (match driverId with | some d => b.driverId == some d | none => true)
    && (match vehicleId with | some v => b.vehicleId == some v | none => true)
    && notExcludedB excludeBookingId b)

/-- Modelled from the spec: §4.2 `findConflicts` as the specification words
it — only `approved` reservations are obstacles; `[s1,e1)` and `[s2,e2)`
overlap iff `s1 < e2 AND s2 < e1`; a conflict needs overlap and a driver or
vehicle identity match (logical OR); no resource specified means an empty
result; `excludeReservationId` removes that reservation.  Used only to
compare the source's `checkBookingConflicts` against the §4.2 contract. -/
def findConflictsSpec (s e : Int)
    (driverId vehicleId : Option String) (excludeReservationId : Option String)
    (bs : List Booking) : List Booking :=
  if driverId.isNone && vehicleId.isNone then []
  else
    bs.filter (fun b =>
      (b.status == "approved")
      && (decide (s < b.returnDate) && decide (b.departureDate < e))
      && ((match driverId with | some d => b.driverId == some d | none => false)
          || (match vehicleId with | some v => b.vehicleId == some v | none => false))
      && notExcludedB excludeReservationId b)

/-- Sample approved reservation on `[5, 15)` with driver `d1`, vehicle `v1`. -/
def bkA : Booking :=
  { id := "B1", bookingId := ['2', '5', '0', '0', '1'], userId := "u1",
    departureDate := 5, returnDate := 15, status := "approved",
    driverId := some "d1", vehicleId := some "v1", driverInstruction := none,
    rejectionReason := none, submissionDate := 0, processedDate := some 1,
    modifiedDate := none, processedBy := some "a1" }

/-- Sample approved reservation on `[10, 20)` with driver `d1` — it touches
the candidate interval `[0, 10)` exactly at the endpoint. -/
def bkTouch : Booking :=
  { id := "B2", bookingId := ['2', '5', '0', '0', '2'], userId := "u2",
    departureDate := 10, returnDate := 20, status := "approved",
    driverId := some "d1", vehicleId := some "v2", driverInstruction := none,
    rejectionReason := none, submissionDate := 0, processedDate := some 1,
    modifiedDate := none, processedBy := some "a1" }

/-- A JS `Date`: a calendar day number (days since 1970-01-01) plus a
time-of-day component.  `new Date(getFullYear(), getMonth(), getDate())`
keeps the day and drops the time-of-day. -/
structure Instant where
  day : Int
  timeOfDay : Nat
deriving DecidableEq, Repr

/-- JS `Date.getDay()` on a day number: 0 = Sunday … 6 = Saturday
(1970-01-01, day 0, was a Thursday, so the offset is 4). -/
def jsGetDay (d : Int) : Int := (d + 4) % 7

/-- The loop-body test of `calculateWorkingDays` (client/src/lib/utils.ts):
`dayOfWeek !== 0 && dayOfWeek !== 6 && !isPublicHoliday(currentDate)`.
The holiday calendar is the injectable collaborator `isPublicHoliday`
(the source consults a fixed Malaysian list; the claims treat it as the
set of designated holidays). -/
def isWorkingDayB (isPublicHoliday : Int → Bool) (d : Int) : Bool :=
  !(jsGetDay d == 0) && !(jsGetDay d == 6) && !(isPublicHoliday d)

/-- The `while (currentDate <= end)` loop of `calculateWorkingDays`, with the
exact iteration count `end + 1 - countFrom` supplied as structural fuel. -/
def calculateWorkingDaysGo (isPublicHoliday : Int → Bool) (endDay : Int) :
    Nat → Int → Nat
  | 0, _ => 0
  | fuel + 1, currentDate =>
    if currentDate ≤ endDay then
      (if isWorkingDayB isPublicHoliday currentDate then 1 else 0)
        + calculateWorkingDaysGo isPublicHoliday endDay fuel (currentDate + 1)
    else 0

/-- Model of `calculateWorkingDays` (client/src/lib/utils.ts, current revision):
normalizes both instants to calendar dates, starts counting from the day
after submission, and counts every day through `end` that is neither a
Saturday, a Sunday, nor a public holiday. -/
def calculateWorkingDays (isPublicHoliday : Int → Bool)
    (startDate endDate : Instant) : Nat :=
  let start := startDate.day
  let endD := endDate.day
  let countFrom := start + 1
  calculateWorkingDaysGo isPublicHoliday endD (endD + 1 - countFrom).toNat countFrom

/-- Lexicographic (code-point) comparison of two JS strings — the order SQL
`ORDER BY booking_id` uses on the varchar codes. -/
def strLtB : List Char → List Char → Bool
  | [], [] => false
  | [], _ :: _ => true
  | _ :: _, [] => false
  | a :: as, b :: bs =>
    if a.toNat < b.toNat then true
    else if b.toNat < a.toNat then false
    else strLtB as bs

/-- Model of `ORDER BY bookings.bookingId DESC LIMIT 1`: the lexicographically
greatest code of the list, `none` on an empty result set. -/
def latestByIdDesc : List (List Char) → Option (List Char)
  | [] => none
  | s :: rest =>
    match latestByIdDesc rest with
    | none => some s
    | some m => if strLtB m s then some s else some m

/-- The numeric maximum of a list of naturals, mirroring the recursion
structure of `latestByIdDesc`; used to state what the lexicographic maximum
computes on well-formed codes. -/
def natMaxList : List Nat → Option Nat
  | [] => none
  | k :: rest =>
    match natMaxList rest with
    | none => some k
    | some m => if m < k then some k else some m

/-- Accumulator loop of JS `parseInt`, consuming leading ASCII digits
(code points 48–57). -/
def jsParseIntDigits : List Char → Nat → Nat
  | [], acc => acc
  | c :: cs, acc =>
    if 48 ≤ c.toNat ∧ c.toNat ≤ 57 then jsParseIntDigits cs (acc * 10 + (c.toNat - 48))
    else acc

/-- JS `parseInt` on the all-digit strings this code slices out of booking
codes (on a string with no leading digit JS yields NaN instead; no claim
touches that case). -/
def jsParseInt (s : List Char) : Nat := jsParseIntDigits s 0

/-- JS `String.prototype.padStart`. -/
def padStart (s : List Char) (width : Nat) (c : Char) : List Char :=
  List.replicate (width - s.length) c ++ s

/-- Model of `sequence.toString().padStart(3, '0')`. -/
def pad3 (n : Nat) : List Char := padStart (Nat.repr n).data 3 '0'

/-- Model of `DatabaseStorage.generateBookingId` (storage.ts): take the
lexicographically latest booking code that starts with the current 2-digit
year (`LIKE 'YY%'`, `ORDER BY DESC LIMIT 1`), parse everything after the
first two characters (`slice(2)`), add one (or start at 1 when the year has
no codes), zero-pad to 3 digits, and prepend the year prefix.  `currentYear`
(from `new Date()` in the source) and the table's code column are inputs. -/
def generateBookingId (currentYear : List Char) (existingIds : List (List Char)) : List Char :=
  let latestBooking := latestByIdDesc (existingIds.filter (fun s => currentYear.isPrefixOf s))
  let sequence : Nat :=
    match latestBooking with
    | some latestId => jsParseInt (latestId.drop 2) + 1
    | none => 1
  currentYear ++ pad3 sequence

/-- A row of the `users` table restricted to what the routes read. -/
structure UserAcct where
  id : String
  role : String
deriving DecidableEq, Repr

/-- A row of the `audit_trail` table (timestamp column omitted). -/
structure AuditEntry where
  bookingId : String
  userId : String
  action : String
  oldValues : Option Booking
  newValues : Option Booking
deriving DecidableEq, Repr

/-- The persistent store the route handlers read and write. -/
structure SystemState where
  bookings : List Booking
  auditTrail : List AuditEntry
deriving DecidableEq, Repr

/-- Model of `storage.getBooking`: select the row whose surrogate id matches. -/
def getBooking (bs : List Booking) (id : String) : Option Booking :=
  bs.find? (fun b => b.id == id)

/-- Model of `storage.updateBooking`: `UPDATE bookings SET ... WHERE id = bid`,
rewriting the matching row in place. -/
def updateBookingRows (bs : List Booking) (id : String) (f : Booking → Booking) : List Booking :=
  bs.map (fun b => if b.id = id then f b else b)

/-- Drizzle's `.set` skips keys whose value is `undefined`: a request field
that is absent leaves the stored column unchanged, a present field
overwrites it. -/
def setIfDefined (new old : Option String) : Option String :=
  match new with
  | some v => some v
  | none => old

/-- Request body of `PUT /api/bookings/:id/process`. -/
structure ProcessBody where
  status : String
  driverId : Option String
  vehicleId : Option String
  driverInstruction : Option String
  rejectionReason : Option String
deriving DecidableEq, Repr

/-- Outcome of the process/modify handlers (HTTP 403 / 404 / 400-conflicts /
200 with the updated row). -/
inductive ProcessResult where
  | accessDenied
  | notFound
  | conflictError (conflicts : List Booking)
  | ok (b : Booking)
deriving DecidableEq, Repr

/-- The `updates` object built by the process handler (routes.ts): status,
processedBy, processedDate always; driver/vehicle/instruction only when
approving; rejectionReason only when rejecting. -/
def applyProcessUpdates (body : ProcessBody) (processedBy : String) (now : Int)
    (b : Booking) : Booking :=
  let b1 := { b with status := body.status, processedBy := some processedBy,
                     processedDate := some now }
  if body.status = "approved" then
    { b1 with driverId := setIfDefined body.driverId b.driverId,
              vehicleId := setIfDefined body.vehicleId b.vehicleId,
              driverInstruction := setIfDefined body.driverInstruction b.driverInstruction }
  else if body.status = "rejected" then
    { b1 with rejectionReason := setIfDefined body.rejectionReason b.rejectionReason }
  else b1

/-- Handler `PUT /api/bookings/:id/process` (routes.ts): admin/superadmin only; the
conflict check runs only when the request approves AND supplies both a
driverId and a vehicleId; a non-empty conflict list aborts with the list and
no mutation; otherwise the update row and an `approved`/`rejected` audit
entry are committed. -/
def processBookingRoute (st : SystemState) (user : UserAcct) (bookingId : String)
    (body : ProcessBody) (now : Int) : ProcessResult × SystemState :=
  if user.role ≠ "admin" ∧ user.role ≠ "superadmin" then (.accessDenied, st)
  else
    match getBooking st.bookings bookingId with
    | none => (.notFound, st)
    | some existingBooking =>
      let conflicts :=
        if body.status = "approved" ∧ body.driverId.isSome ∧ body.vehicleId.isSome then
          checkBookingConflicts existingBooking.departureDate existingBooking.returnDate
            body.driverId body.vehicleId (some bookingId) st.bookings
        else []
      if conflicts ≠ [] then (.conflictError conflicts, st)
      else
        let updatedBooking := applyProcessUpdates body user.id now existingBooking
        (.ok updatedBooking,
          { bookings := updateBookingRows st.bookings bookingId
              (applyProcessUpdates body user.id now),
            auditTrail := st.auditTrail ++
              [{ bookingId := bookingId, userId := user.id,
                 action := if body.status = "approved" then "approved" else "rejected",
                 oldValues := some existingBooking, newValues := some updatedBooking }] })

/-- Request body of `PUT /api/bookings/:id/modify`. -/
structure ModifyBody where
  status : String
  driverId : Option String
  vehicleId : Option String
  driverInstruction : Option String
deriving DecidableEq, Repr

/-- The `updates` object of the modify handler: status, assignment fields
and modifiedDate, written regardless of the new status. -/
def applyModifyUpdates (body : ModifyBody) (now : Int) (b : Booking) : Booking :=
  { b with status := body.status,
           driverId := setIfDefined body.driverId b.driverId,
           vehicleId := setIfDefined body.vehicleId b.vehicleId,
           driverInstruction := setIfDefined body.driverInstruction b.driverInstruction,
           modifiedDate := some now }

/-- Handler `PUT /api/bookings/:id/modify` (routes.ts): superadmin only; same
conditional conflict check as process; commits the updates and a `modified`
audit entry. -/
def modifyBookingRoute (st : SystemState) (user : UserAcct) (bookingId : String)
    (body : ModifyBody) (now : Int) : ProcessResult × SystemState :=
  if user.role ≠ "superadmin" then (.accessDenied, st)
  else
    match getBooking st.bookings bookingId with
    | none => (.notFound, st)
    | some existingBooking =>
      let conflicts :=
        if body.status = "approved" ∧ body.driverId.isSome ∧ body.vehicleId.isSome then
          checkBookingConflicts existingBooking.departureDate existingBooking.returnDate
            body.driverId body.vehicleId (some bookingId) st.bookings
        else []
      if conflicts ≠ [] then (.conflictError conflicts, st)
      else
        let updatedBooking := applyModifyUpdates body now existingBooking
        (.ok updatedBooking,
          { bookings := updateBookingRows st.bookings bookingId (applyModifyUpdates body now),
            auditTrail := st.auditTrail ++
              [{ bookingId := bookingId, userId := user.id, action := "modified",
                 oldValues := some existingBooking, newValues := some updatedBooking }] })

/-- Outcome of the cancel handler (404 / 403 / 400 with message / 200). -/
inductive CancelResult where
  | notFound
  | authorizationError
  | validationError (message : String)
  | ok (b : Booking)
deriving DecidableEq, Repr

/-- The `updates` object of the cancel handler: the literal status
`'dibatalkan'`, processedDate and processedBy; nothing else is touched. -/
def applyCancelUpdates (userId : String) (now : Int) (b : Booking) : Booking :=
  { b with status := "dibatalkan", processedDate := some now, processedBy := some userId }

/-- Handler `POST /api/bookings/:id/cancel` (routes.ts): owner check, then the
pending-or-approved status guard, then the future-departure guard; on
success the row is rewritten to `'dibatalkan'` and a `cancelled` audit entry
appended. -/
def cancelBookingRoute (st : SystemState) (user : UserAcct) (bookingId : String)
    (now : Int) : CancelResult × SystemState :=
  match getBooking st.bookings bookingId with
  | none => (.notFound, st)
  | some existingBooking =>
    if existingBooking.userId ≠ user.id then (.authorizationError, st)
    else if existingBooking.status ≠ "pending" ∧ existingBooking.status ≠ "approved" then
      (.validationError "Only pending or approved bookings can be cancelled", st)
    else if existingBooking.departureDate ≤ now then
      (.validationError "Cannot cancel bookings that have already started", st)
    else
      let updatedBooking := applyCancelUpdates user.id now existingBooking
      (.ok updatedBooking,
        { bookings := updateBookingRows st.bookings bookingId (applyCancelUpdates user.id now),
          auditTrail := st.auditTrail ++
            [{ bookingId := bookingId, userId := user.id, action := "cancelled",
               oldValues := some existingBooking, newValues := some updatedBooking }] })

/-- Request body of `POST /api/bookings` after `insertBookingSchema.parse`
(shared/schema.ts): the schema omits only id/createdAt/updatedAt/
submissionDate, so status and the assignment fields are accepted when
present; `newId` stands for the `gen_random_uuid()` surrogate key. -/
structure CreateBody where
  newId : String
  departureDate : Int
  returnDate : Int
  status : Option String
  driverId : Option String
  vehicleId : Option String
  driverInstruction : Option String
deriving DecidableEq, Repr

/-- Outcome of the create handler. -/
inductive CreateResult where
  | validationError (message : String)
  | ok (b : Booking)
deriving DecidableEq, Repr

/-- Handler `POST /api/bookings` (routes.ts): allocate the booking code, refuse a
non-future departure, insert the row (status defaults to `'pending'` via the
column default) and append a `created` audit entry. -/
def createBookingRoute (currentYear : List Char) (st : SystemState) (userId : String)
    (body : CreateBody) (now : Int) : CreateResult × SystemState :=
  let code := generateBookingId currentYear (st.bookings.map (fun b => b.bookingId))
  if body.departureDate ≤ now then
    (.validationError "Booking must be for future dates only", st)
  else
    let booking : Booking :=
      { id := body.newId, bookingId := code, userId := userId,
        departureDate := body.departureDate, returnDate := body.returnDate,
        status := (match body.status with | some s => s | none => "pending"),
        driverId := body.driverId, vehicleId := body.vehicleId,
        driverInstruction := body.driverInstruction, rejectionReason := none,
        submissionDate := now, processedDate := none, modifiedDate := none,
        processedBy := none }
    (.ok booking,
      { bookings := st.bookings ++ [booking],
        auditTrail := st.auditTrail ++
          [{ bookingId := body.newId, userId := userId, action := "created",
             oldValues := none, newValues := some booking }] })

/-- The `GROUP BY status` aggregation of `getBookingStats`: one `(status,
count)` row per distinct status value present in the table. -/
def statusCounts (bs : List Booking) : List (String × Nat) :=
  ((bs.map (fun b => b.status)).dedup).map
    (fun s => (s, (bs.filter (fun b => b.status == s)).length))

/-- The JS assignment `result[stat.status] = Number(stat.count)` on the
result object: overwrite the key when present, otherwise add it. -/
def setStatKey (m : List (String × Nat)) (k : String) (v : Nat) : List (String × Nat) :=
  if m.any (fun p => p.1 == k) then m.map (fun p => if p.1 == k then (k, v) else p)
  else m ++ [(k, v)]

/-- One iteration of the `stats.forEach` loop: `if (stat.status &&
stat.count)` (JS truthiness: non-empty string, non-zero count) guards the
assignment. -/
def statsFoldStep (result : List (String × Nat)) (sc : String × Nat) :
    List (String × Nat) :=
  if sc.1 ≠ "" ∧ sc.2 ≠ 0 then setStatKey result sc.1 sc.2 else result

/-- Model of `DatabaseStorage.getBookingStats` (storage.ts) at runtime: start from
`{pending: 0, approved: 0, rejected: 0}` and, for every grouped row with a
truthy status and count, assign `result[stat.status] = count` — the
TypeScript cast `stat.status as keyof typeof result` does not stop statuses
outside the three declared keys from being assigned. -/
def getBookingStats (bs : List Booking) : List (String × Nat) :=
  (statusCounts bs).foldl statsFoldStep
    [("pending", 0), ("approved", 0), ("rejected", 0)]

/-- Model of `storage.getAllVehicles`: only rows with `isActive = true`. -/
def getAllVehicles (vs : List Vehicle) : List Vehicle :=
  vs.filter (fun v => v.isActive)

/-- Handler `GET /api/stats` (routes.ts): the stats object spread together with
`availableVehicles: ${vehicles.filter(v => v.isActive).length}/${vehicles.length}`
where `vehicles = getAllVehicles()`; the ratio is returned as the
(numerator, denominator) pair the handler formats. -/
def statsRoute (bs : List Booking) (vs : List Vehicle) :
    List (String × Nat) × (Nat × Nat) :=
  (getBookingStats bs,
    (((getAllVehicles vs).filter (fun v => v.isActive)).length, (getAllVehicles vs).length))

/-- Sample pending reservation of user `u1` on `[100, 200)` with no
assignment. -/
def bkP : Booking :=
  { id := "B3", bookingId := ['2', '5', '0', '0', '3'], userId := "u1",
    departureDate := 100, returnDate := 200, status := "pending",
    driverId := none, vehicleId := none, driverInstruction := none,
    rejectionReason := none, submissionDate := 0, processedDate := none,
    modifiedDate := none, processedBy := none }

/-- Sample pending reservation of user `u2` on `[8, 12)`, overlapping
`bkA`'s interval. -/
def bkP4 : Booking :=
  { id := "B4", bookingId := ['2', '5', '0', '0', '4'], userId := "u2",
    departureDate := 8, returnDate := 12, status := "pending",
    driverId := none, vehicleId := none, driverInstruction := none,
    rejectionReason := none, submissionDate := 0, processedDate := none,
    modifiedDate := none, processedBy := none }

/-- Sample cancelled reservation (status `'dibatalkan'`). -/
def bkC : Booking :=
  { id := "B5", bookingId := ['2', '5', '0', '0', '5'], userId := "u1",
    departureDate := 1, returnDate := 2, status := "dibatalkan",
    driverId := none, vehicleId := none, driverInstruction := none,
    rejectionReason := none, submissionDate := 0, processedDate := some 1,
    modifiedDate := none, processedBy := some "u1" }

/-- Sample admin account. -/
def uAdmin : UserAcct := { id := "a1", role := "admin" }

/-- Sample vehicles: one active, one deactivated. -/
def vActive : Vehicle := { id := "v1", isActive := true }

def vInactive : Vehicle := { id := "v2", isActive := false }

/-- States of the create → approve → cancel run used to probe the
assignment invariant: the empty store. -/
def stRun0 : SystemState := { bookings := [], auditTrail := [] }

/-- After `u1` creates reservation `B9` on `[100, 200)` with a plain trip
body (no status, no assignment). -/
def stRun1 : SystemState :=
  (createBookingRoute ['2', '5'] stRun0 "u1"
    { newId := "B9", departureDate := 100, returnDate := 200, status := none,
      driverId := none, vehicleId := none, driverInstruction := none } 0).2

/-- After the admin approves `B9` with driver `d1` and vehicle `v1`. -/
def stRun2 : SystemState :=
  (processBookingRoute stRun1 uAdmin "B9"
    { status := "approved", driverId := some "d1", vehicleId := some "v1",
      driverInstruction := none, rejectionReason := none } 10).2

/-- After `u1` cancels `B9` before departure. -/
def stRun3 : SystemState :=
  (cancelBookingRoute stRun2 { id := "u1", role := "user" } "B9" 50).2

theorem resourceMatchB_eq_true_iff (driverId vehicleId : Option String) (b : Booking) :
    resourceMatchB driverId vehicleId b = true ↔
      (driverId.isSome ∧ b.driverId = driverId) ∨
        (vehicleId.isSome ∧ b.vehicleId = vehicleId) := by
  cases driverId <;> cases vehicleId <;> simp [resourceMatchB]

theorem mem_checkBookingConflicts {dep ret : Int}
    {driverId vehicleId ex : Option String} {bs : List Booking} {b : Booking}
    (hres : driverId.isSome ∨ vehicleId.isSome) :
    b ∈ checkBookingConflicts dep ret driverId vehicleId ex bs ↔
      b ∈ bs ∧ b.status = "approved" ∧ b.departureDate < ret ∧ dep < b.returnDate ∧
        notExcludedB ex b = true ∧ resourceMatchB driverId vehicleId b = true := by
  have hcond : (driverId.isNone && vehicleId.isNone) = false := by
    rcases hres with h | h <;> cases driverId <;> cases vehicleId <;> simp_all
  rw [checkBookingConflicts, hcond]
  simp [List.mem_filter, overlapsB, and_assoc]

/-- Claim C1: for a candidate interval `[dep, ret)` with at least one
resource specified, `checkBookingConflicts` returns only reservations that
are `approved` and strictly overlap (`s2 < ret AND dep < e2`); among the
reservations satisfying the resource and exclusion conditions it returns
exactly those; and a reservation that merely touches the candidate at an
endpoint is never returned (pending/rejected/cancelled never are, since every
returned reservation is approved). -/
theorem checkBookingConflicts_status_overlap_exact
    (dep ret : Int) (driverId vehicleId ex : Option String) (bs : List Booking)
    (hres : driverId.isSome ∨ vehicleId.isSome) :
    (∀ b ∈ checkBookingConflicts dep ret driverId vehicleId ex bs,
        b.status = "approved" ∧ b.departureDate < ret ∧ dep < b.returnDate)
    ∧ (∀ b ∈ bs, resourceMatchB driverId vehicleId b = true →
        notExcludedB ex b = true →
        (b ∈ checkBookingConflicts dep ret driverId vehicleId ex bs ↔
          b.status = "approved" ∧ b.departureDate < ret ∧ dep < b.returnDate))
    ∧ (∀ b, (b.returnDate = dep ∨ b.departureDate = ret) →
        b ∉ checkBookingConflicts dep ret driverId vehicleId ex bs) := by
  refine ⟨?_, ?_, ?_⟩
  · intro b hb
    have h := (mem_checkBookingConflicts hres).mp hb
    exact ⟨h.2.1, h.2.2.1, h.2.2.2.1⟩
  · intro b hb hmatch hexcl
    rw [mem_checkBookingConflicts hres]
    constructor
    · rintro ⟨-, h1, h2, h3, -, -⟩
      exact ⟨h1, h2, h3⟩
    · rintro ⟨h1, h2, h3⟩
      exact ⟨hb, h1, h2, h3, hexcl, hmatch⟩
  · rintro b (htouch | htouch) hb
    · have h := (mem_checkBookingConflicts hres).mp hb
      omega
    · have h := (mem_checkBookingConflicts hres).mp hb
      omega

theorem checkBookingConflicts_status_overlap_exact_witness :
    ((some "d1" : Option String).isSome ∨ (none : Option String).isSome)
    ∧ ((∀ b ∈ checkBookingConflicts 0 10 (some "d1") none none [bkA, bkTouch],
          b.status = "approved" ∧ b.departureDate < 10 ∧ 0 < b.returnDate)
      ∧ (∀ b ∈ [bkA, bkTouch], resourceMatchB (some "d1") none b = true →
          notExcludedB none b = true →
          (b ∈ checkBookingConflicts 0 10 (some "d1") none none [bkA, bkTouch] ↔
            b.status = "approved" ∧ b.departureDate < 10 ∧ 0 < b.returnDate))
      ∧ (∀ b, (b.returnDate = 0 ∨ b.departureDate = 10) →
          b ∉ checkBookingConflicts 0 10 (some "d1") none none [bkA, bkTouch])) :=
  ⟨by decide,
   checkBookingConflicts_status_overlap_exact 0 10 (some "d1") none none
     [bkA, bkTouch] (by decide)⟩

/-- Claim C3: `checkBookingConflicts` membership is exactly temporal overlap
AND (driver match OR vehicle match) — a logical OR across the two resource
dimensions — together with the approved-status and exclusion conditions; and
a candidate that specifies neither `driverId` nor `vehicleId` always gets the
empty list. -/
theorem checkBookingConflicts_resource_or
    (dep ret : Int) (driverId vehicleId ex : Option String) (bs : List Booking) :
    (driverId = none ∧ vehicleId = none →
      checkBookingConflicts dep ret driverId vehicleId ex bs = [])
    ∧ (∀ b, b ∈ checkBookingConflicts dep ret driverId vehicleId ex bs ↔
        b ∈ bs ∧ b.status = "approved" ∧ b.departureDate < ret ∧ dep < b.returnDate
          ∧ notExcludedB ex b = true
          ∧ ((driverId.isSome ∧ b.driverId = driverId) ∨
              (vehicleId.isSome ∧ b.vehicleId = vehicleId))) := by
  constructor
  · rintro ⟨rfl, rfl⟩
    rw [checkBookingConflicts]
    simp
  · intro b
    cases driverId with
    | some d =>
      have h : (Option.some d).isSome = true := rfl
      rw [mem_checkBookingConflicts (Or.inl h), resourceMatchB_eq_true_iff]
    | none =>
      cases vehicleId with
      | some v =>
        have h : (Option.some v).isSome = true := rfl
        rw [mem_checkBookingConflicts (Or.inr h), resourceMatchB_eq_true_iff]
      | none =>
        rw [checkBookingConflicts]
        simp

theorem checkBookingConflicts_resource_or_witness :
    (((none : Option String) = none ∧ (none : Option String) = none →
        checkBookingConflicts 0 10 none none none [bkA, bkTouch] = [])
      ∧ (∀ b, b ∈ checkBookingConflicts 0 10 none none none [bkA, bkTouch] ↔
          b ∈ [bkA, bkTouch] ∧ b.status = "approved" ∧ b.departureDate < 10 ∧
            0 < b.returnDate ∧ notExcludedB none b = true
            ∧ (((none : Option String).isSome ∧ b.driverId = none) ∨
                ((none : Option String).isSome ∧ b.vehicleId = none)))) :=
  checkBookingConflicts_resource_or 0 10 none none none [bkA, bkTouch]

/-- Claim C8: the two revisions of the overlap check diverge — on the
candidate `[0, 10)` with driver `d1`, the earlier bounding-box revision
returns the approved reservation `[10, 20)` that merely touches the endpoint
while the current strict revision does not — and the current revision agrees
with the §4.2 contract (`findConflictsSpec`) on every input. -/
theorem conflict_versions_divergent_current_matches_spec :
    (checkBookingConflictsOld 0 10 (some "d1") none none [bkTouch] = [bkTouch]
      ∧ checkBookingConflicts 0 10 (some "d1") none none [bkTouch] = []
      ∧ checkBookingConflictsOld 0 10 (some "d1") none none [bkTouch] ≠
          checkBookingConflicts 0 10 (some "d1") none none [bkTouch])
    ∧ (∀ (dep ret : Int) (driverId vehicleId ex : Option String) (bs : List Booking),
        checkBookingConflicts dep ret driverId vehicleId ex bs =
          findConflictsSpec dep ret driverId vehicleId ex bs) := by
  constructor
  · exact ⟨rfl, rfl, by decide⟩
  · intro dep ret driverId vehicleId ex bs
    rw [checkBookingConflicts, findConflictsSpec]
    rcases h : (driverId.isNone && vehicleId.isNone) with _ | _
    · simp only [Bool.false_eq_true, if_false]
      apply List.filter_congr
      intro b _
      rw [Bool.eq_iff_iff]
      simp only [Bool.and_eq_true, Bool.or_eq_true, decide_eq_true_iff,
        beq_iff_eq, overlapsB, resourceMatchB, notExcludedB]
      tauto
    · rfl

theorem calculateWorkingDaysGo_eq (hol : Int → Bool) (endDay : Int) :
    ∀ (fuel : Nat) (cur : Int), cur + (fuel : Int) = endDay + 1 →
      calculateWorkingDaysGo hol endDay fuel cur =
        ((Finset.Icc cur endDay).filter (fun d => isWorkingDayB hol d = true)).card := by
  intro fuel
  induction fuel with
  | zero =>
    intro cur h
    have hlt : endDay < cur := by omega
    rw [calculateWorkingDaysGo, Finset.Icc_eq_empty (by omega)]
    simp
  | succ n ih =>
    intro cur h
    have hle : cur ≤ endDay := by
      have := Int.ofNat_nonneg n
      omega
    rw [calculateWorkingDaysGo, if_pos hle]
    have hIcc : Finset.Icc cur endDay = insert cur (Finset.Icc (cur + 1) endDay) := by
      ext x
      simp only [Finset.mem_Icc, Finset.mem_insert]
      omega
    have hnot : cur ∉ Finset.Icc (cur + 1) endDay := by
      simp only [Finset.mem_Icc]
      omega
    rw [hIcc, Finset.filter_insert, ih (cur + 1) (by push_cast at h ⊢; omega)]
    have hnotf : cur ∉ Finset.filter (fun d => isWorkingDayB hol d = true)
        (Finset.Icc (cur + 1) endDay) :=
      fun hc => hnot (Finset.mem_of_mem_filter cur hc)
    cases hw : isWorkingDayB hol cur with
    | true =>
      rw [if_pos rfl, if_pos rfl, Finset.card_insert_of_not_mem hnotf]
      omega
    | false =>
      rw [if_neg (by simp), if_neg (by simp)]
      omega

/-- Claim C5: `calculateWorkingDays` normalizes both instants to calendar
dates (the time-of-day component never matters), returns the number of dates
`d` with `start + 1 ≤ d ≤ end` that are neither Saturday, Sunday, nor a
designated holiday, never counts the submission day itself, returns `0`
whenever `end < start + 1`, and in particular returns `0` on a same-day
pair. -/
theorem calculateWorkingDays_spec (hol : Int → Bool) (s e : Instant) :
    (calculateWorkingDays hol s e =
        ((Finset.Icc (s.day + 1) e.day).filter (fun d => isWorkingDayB hol d = true)).card)
    ∧ (∀ t t2 : Nat, calculateWorkingDays hol ⟨s.day, t⟩ ⟨e.day, t2⟩ =
        calculateWorkingDays hol s e)
    ∧ (e.day < s.day + 1 → calculateWorkingDays hol s e = 0)
    ∧ (∀ (d : Int) (t t2 : Nat), calculateWorkingDays hol ⟨d, t⟩ ⟨d, t2⟩ = 0) := by
  have main : ∀ s2 e2 : Instant, calculateWorkingDays hol s2 e2 =
      ((Finset.Icc (s2.day + 1) e2.day).filter (fun d => isWorkingDayB hol d = true)).card := by
    intro s2 e2
    rw [calculateWorkingDays]
    by_cases hcase : s2.day ≤ e2.day
    · exact calculateWorkingDaysGo_eq hol e2.day _ (s2.day + 1)
        (by rw [Int.toNat_of_nonneg (by omega)]; omega)
    · have h0 : (e2.day + 1 - (s2.day + 1)).toNat = 0 := by omega
      rw [h0, calculateWorkingDaysGo, Finset.Icc_eq_empty (by omega)]
      simp
  refine ⟨main s e, fun t t2 => rfl, ?_, ?_⟩
  · intro hlt
    rw [main s e, Finset.Icc_eq_empty (by omega)]
    simp
  · intro d t t2
    rw [main ⟨d, t⟩ ⟨d, t2⟩, Finset.Icc_eq_empty (by simp)]
    simp

theorem calculateWorkingDays_spec_witness :
    (calculateWorkingDays (fun d => decide (d = 5)) ⟨0, 7⟩ ⟨7, 3⟩ =
        ((Finset.Icc (0 + 1 : Int) 7).filter
          (fun d => isWorkingDayB (fun d => decide (d = 5)) d = true)).card)
    ∧ calculateWorkingDays (fun _ => false) ⟨4, 0⟩ ⟨3, 0⟩ = 0
    ∧ calculateWorkingDays (fun _ => false) ⟨9, 1⟩ ⟨9, 2⟩ = 0 :=
  ⟨(calculateWorkingDays_spec (fun d => decide (d = 5)) ⟨0, 7⟩ ⟨7, 3⟩).1,
   (calculateWorkingDays_spec (fun _ => false) ⟨4, 0⟩ ⟨3, 0⟩).2.2.1 (by decide),
   (calculateWorkingDays_spec (fun _ => false) ⟨9, 0⟩ ⟨9, 0⟩).2.2.2 9 1 2⟩

/-- Claim C6: with an existing reservation, Cancel succeeds exactly when the
requester is the owner, the status is `pending` or `approved`, and the
departure instant is strictly in the future; a non-owner attempt gets the
authorization error; an owner attempt whose departure has passed gets a
validation error (the owner check runs first, so non-owner attempts always
surface the authorization error); and every failed attempt leaves the store
untouched. -/
theorem cancelBookingRoute_guards (st : SystemState) (user : UserAcct)
    (bid : String) (now : Int) (b : Booking)
    (hfind : getBooking st.bookings bid = some b) :
    ((∃ b2, (cancelBookingRoute st user bid now).1 = CancelResult.ok b2) ↔
        (b.userId = user.id ∧ (b.status = "pending" ∨ b.status = "approved")
          ∧ now < b.departureDate))
    ∧ (b.userId ≠ user.id →
        (cancelBookingRoute st user bid now).1 = CancelResult.authorizationError)
    ∧ (b.userId = user.id → b.departureDate ≤ now →
        ∃ msg, (cancelBookingRoute st user bid now).1 = CancelResult.validationError msg)
    ∧ ((∀ b2, (cancelBookingRoute st user bid now).1 ≠ CancelResult.ok b2) →
        (cancelBookingRoute st user bid now).2 = st) := by
  by_cases hown : b.userId = user.id
  · by_cases hstat : b.status ≠ "pending" ∧ b.status ≠ "approved"
    · have hroute : cancelBookingRoute st user bid now =
          (CancelResult.validationError "Only pending or approved bookings can be cancelled", st) := by
        simp only [cancelBookingRoute, hfind]
        rw [if_neg (by simp [hown]), if_pos hstat]
      rw [hroute]
      refine ⟨?_, ?_, ?_, ?_⟩
      · simp only [Prod.fst]
        constructor
        · rintro ⟨b2, hb2⟩; cases hb2
        · rintro ⟨-, hps, -⟩; tauto
      · intro h; exact absurd hown h
      · intro _ _; exact ⟨_, rfl⟩
      · intro _; rfl
    · by_cases hdate : b.departureDate ≤ now
      · have hroute : cancelBookingRoute st user bid now =
            (CancelResult.validationError "Cannot cancel bookings that have already started", st) := by
          simp only [cancelBookingRoute, hfind]
          rw [if_neg (by simp [hown]), if_neg hstat, if_pos hdate]
        rw [hroute]
        refine ⟨?_, ?_, ?_, ?_⟩
        · simp only [Prod.fst]
          constructor
          · rintro ⟨b2, hb2⟩; cases hb2
          · rintro ⟨-, -, hfut⟩; omega
        · intro h; exact absurd hown h
        · intro _ _; exact ⟨_, rfl⟩
        · intro _; rfl
      · have hroute : cancelBookingRoute st user bid now =
            (CancelResult.ok (applyCancelUpdates user.id now b),
              { bookings := updateBookingRows st.bookings bid (applyCancelUpdates user.id now),
                auditTrail := st.auditTrail ++
                  [{ bookingId := bid, userId := user.id, action := "cancelled",
                     oldValues := some b,
                     newValues := some (applyCancelUpdates user.id now b) }] }) := by
          simp only [cancelBookingRoute, hfind]
          rw [if_neg (by simp [hown]), if_neg hstat, if_neg hdate]
        rw [hroute]
        refine ⟨?_, ?_, ?_, ?_⟩
        · simp only [Prod.fst]
          constructor
          · intro _
            refine ⟨hown, ?_, by omega⟩
            by_cases hp : b.status = "pending"
            · exact Or.inl hp
            · exact Or.inr (by tauto)
          · intro _; exact ⟨_, rfl⟩
        · intro h; exact absurd hown h
        · intro _ h; exact absurd h hdate
        · intro h; exact absurd rfl (h _)
  · have hroute : cancelBookingRoute st user bid now = (CancelResult.authorizationError, st) := by
      simp only [cancelBookingRoute, hfind]
      rw [if_pos hown]
    rw [hroute]
    refine ⟨?_, ?_, ?_, ?_⟩
    · simp only [Prod.fst]
      constructor
      · rintro ⟨b2, hb2⟩; cases hb2
      · rintro ⟨h1, -, -⟩; exact absurd h1 hown
    · intro _; rfl
    · intro h; exact absurd h hown
    · intro _; rfl

theorem cancelBookingRoute_guards_witness :
    (((∃ b2, (cancelBookingRoute ⟨[bkP], []⟩ ⟨"u2", "user"⟩ "B3" 10).1 = CancelResult.ok b2) ↔
        (bkP.userId = "u2" ∧ (bkP.status = "pending" ∨ bkP.status = "approved")
          ∧ 10 < bkP.departureDate))
      ∧ (bkP.userId ≠ "u2" →
          (cancelBookingRoute ⟨[bkP], []⟩ ⟨"u2", "user"⟩ "B3" 10).1 =
            CancelResult.authorizationError)
      ∧ (bkP.userId = "u2" → bkP.departureDate ≤ 10 →
          ∃ msg, (cancelBookingRoute ⟨[bkP], []⟩ ⟨"u2", "user"⟩ "B3" 10).1 =
            CancelResult.validationError msg)
      ∧ ((∀ b2, (cancelBookingRoute ⟨[bkP], []⟩ ⟨"u2", "user"⟩ "B3" 10).1 ≠
            CancelResult.ok b2) →
          (cancelBookingRoute ⟨[bkP], []⟩ ⟨"u2", "user"⟩ "B3" 10).2 = ⟨[bkP], []⟩)) :=
  cancelBookingRoute_guards ⟨[bkP], []⟩ ⟨"u2", "user"⟩ "B3" 10 bkP (by decide)

/-- Claim C2 (amended): for an Approve request that supplies BOTH a driverId
and a vehicleId, the process route runs `checkBookingConflicts` on the
reservation's own interval excluding itself; a non-empty conflict list
refuses the transition — the full list is returned, and neither the booking
rows nor the audit trail change — and the approved state (assignment fields,
processedDate, processedBy) is committed, with an `approved` audit entry,
exactly when the conflict list is empty.  (The unamended claim — that this
holds for every Approve request — fails: requests supplying fewer than both
resources skip the check; see the counterexample.) -/
theorem processBookingRoute_conflict_guard (st : SystemState) (user : UserAcct)
    (bid : String) (body : ProcessBody) (now : Int) (b : Booking) (d v : String)
    (hrole : user.role = "admin" ∨ user.role = "superadmin")
    (hfind : getBooking st.bookings bid = some b)
    (hstatus : body.status = "approved")
    (hdr : body.driverId = some d) (hv : body.vehicleId = some v) :
    (checkBookingConflicts b.departureDate b.returnDate body.driverId body.vehicleId
        (some bid) st.bookings ≠ [] →
      (processBookingRoute st user bid body now).1 =
          ProcessResult.conflictError
            (checkBookingConflicts b.departureDate b.returnDate body.driverId
              body.vehicleId (some bid) st.bookings)
        ∧ (processBookingRoute st user bid body now).2 = st)
    ∧ (checkBookingConflicts b.departureDate b.returnDate body.driverId body.vehicleId
        (some bid) st.bookings = [] →
      (processBookingRoute st user bid body now).1 =
          ProcessResult.ok (applyProcessUpdates body user.id now b)
        ∧ (applyProcessUpdates body user.id now b).status = "approved"
        ∧ (applyProcessUpdates body user.id now b).driverId = some d
        ∧ (applyProcessUpdates body user.id now b).vehicleId = some v
        ∧ (applyProcessUpdates body user.id now b).processedDate = some now
        ∧ (applyProcessUpdates body user.id now b).processedBy = some user.id
        ∧ (processBookingRoute st user bid body now).2 =
            { bookings := updateBookingRows st.bookings bid (applyProcessUpdates body user.id now),
              auditTrail := st.auditTrail ++
                [{ bookingId := bid, userId := user.id, action := "approved",
                   oldValues := some b,
                   newValues := some (applyProcessUpdates body user.id now b) }] }) := by
  have hr : ¬(user.role ≠ "admin" ∧ user.role ≠ "superadmin") := by tauto
  have hcond : body.status = "approved" ∧ body.driverId.isSome ∧ body.vehicleId.isSome :=
    ⟨hstatus, by simp [hdr], by simp [hv]⟩
  have happly : (applyProcessUpdates body user.id now b).status = "approved"
      ∧ (applyProcessUpdates body user.id now b).driverId = some d
      ∧ (applyProcessUpdates body user.id now b).vehicleId = some v
      ∧ (applyProcessUpdates body user.id now b).processedDate = some now
      ∧ (applyProcessUpdates body user.id now b).processedBy = some user.id := by
    rw [applyProcessUpdates, if_pos hstatus]
    simp [hstatus, hdr, hv, setIfDefined]
  constructor
  · intro hc
    have hroute : processBookingRoute st user bid body now =
        (ProcessResult.conflictError
          (checkBookingConflicts b.departureDate b.returnDate body.driverId
            body.vehicleId (some bid) st.bookings), st) := by
      simp only [processBookingRoute, hfind]
      rw [if_neg hr, if_pos hcond, if_pos hc]
    rw [hroute]
    exact ⟨rfl, rfl⟩
  · intro hc
    have hroute : processBookingRoute st user bid body now =
        (ProcessResult.ok (applyProcessUpdates body user.id now b),
          { bookings := updateBookingRows st.bookings bid (applyProcessUpdates body user.id now),
            auditTrail := st.auditTrail ++
              [{ bookingId := bid, userId := user.id,
                 action := if body.status = "approved" then "approved" else "rejected",
                 oldValues := some b,
                 newValues := some (applyProcessUpdates body user.id now b) }] }) := by
      simp only [processBookingRoute, hfind]
      rw [if_neg hr, if_pos hcond, if_neg (by simp [hc])]
    rw [hroute]
    refine ⟨rfl, happly.1, happly.2.1, happly.2.2.1, happly.2.2.2.1, happly.2.2.2.2, ?_⟩
    rw [if_pos hstatus]

theorem processBookingRoute_conflict_guard_witness :
    ((uAdmin.role = "admin" ∨ uAdmin.role = "superadmin")
      ∧ getBooking [bkA, bkP4] "B4" = some bkP4)
    ∧ ((checkBookingConflicts bkP4.departureDate bkP4.returnDate (some "d1") (some "v9")
          (some "B4") [bkA, bkP4] ≠ [] →
        (processBookingRoute ⟨[bkA, bkP4], []⟩ uAdmin "B4"
            ⟨"approved", some "d1", some "v9", none, none⟩ 20).1 =
            ProcessResult.conflictError
              (checkBookingConflicts bkP4.departureDate bkP4.returnDate (some "d1")
                (some "v9") (some "B4") [bkA, bkP4])
          ∧ (processBookingRoute ⟨[bkA, bkP4], []⟩ uAdmin "B4"
              ⟨"approved", some "d1", some "v9", none, none⟩ 20).2 = ⟨[bkA, bkP4], []⟩)) :=
  ⟨⟨Or.inl rfl, by decide⟩,
   (processBookingRoute_conflict_guard ⟨[bkA, bkP4], []⟩ uAdmin "B4"
      ⟨"approved", some "d1", some "v9", none, none⟩ 20 bkP4 "d1" "v9"
      (Or.inl rfl) (by decide) rfl rfl rfl).1⟩

/-- Claim C2, counterexample to the unamended claim: an Approve request for
pending `B4` that supplies only a driver (`d1`, no vehicle) is committed by
the process route even though `checkBookingConflicts` on `B4`'s own interval
with that assignment returns the overlapping approved reservation `bkA` —
the conflict check is skipped, the booking is updated and an audit entry is
written. -/
theorem processBookingRoute_skips_check_without_vehicle :
    checkBookingConflicts bkP4.departureDate bkP4.returnDate (some "d1") none
        (some "B4") [bkA, bkP4] = [bkA]
    ∧ (processBookingRoute ⟨[bkA, bkP4], []⟩ uAdmin "B4"
        ⟨"approved", some "d1", none, none, none⟩ 20).1 =
        ProcessResult.ok (applyProcessUpdates ⟨"approved", some "d1", none, none, none⟩ "a1" 20 bkP4)
    ∧ (applyProcessUpdates ⟨"approved", some "d1", none, none, none⟩ "a1" 20 bkP4).status = "approved"
    ∧ (applyProcessUpdates ⟨"approved", some "d1", none, none, none⟩ "a1" 20 bkP4).driverId = some "d1"
    ∧ (processBookingRoute ⟨[bkA, bkP4], []⟩ uAdmin "B4"
        ⟨"approved", some "d1", none, none, none⟩ 20).2 ≠ ⟨[bkA, bkP4], []⟩ := by
  refine ⟨by decide, by decide, by decide, by decide, by decide⟩

/-- Claim C7 (amended): the assignment columns are written only by the
approve branch of process, by modify, and by values supplied at create —
Cancel never changes any booking's `driverId`/`vehicleId`, and neither does
a process call whose requested status is not `'approved'` (reject included);
but none of these transitions clears an existing assignment, so the claimed
invariant "assignment only while approved" fails on reachable states (see
the counterexample: an approved-then-cancelled reservation keeps its
driver and vehicle with status `'dibatalkan'`). -/
theorem assignments_unchanged_by_cancel_and_reject :
    (∀ (st : SystemState) (user : UserAcct) (bid : String) (now : Int),
        ((cancelBookingRoute st user bid now).2).bookings.map
            (fun b => (b.id, b.driverId, b.vehicleId))
          = st.bookings.map (fun b => (b.id, b.driverId, b.vehicleId)))
    ∧ (∀ (st : SystemState) (user : UserAcct) (bid : String) (body : ProcessBody)
        (now : Int), body.status ≠ "approved" →
        ((processBookingRoute st user bid body now).2).bookings.map
            (fun b => (b.id, b.driverId, b.vehicleId))
          = st.bookings.map (fun b => (b.id, b.driverId, b.vehicleId))) := by
  constructor
  · intro st user bid now
    cases hf : getBooking st.bookings bid with
    | none => simp only [cancelBookingRoute, hf]
    | some b =>
      simp only [cancelBookingRoute, hf]
      split_ifs with h1 h2 h3
      · rfl
      · rfl
      · rfl
      · simp only [updateBookingRows, List.map_map]
        apply List.map_congr_left
        intro bk _
        by_cases hbk : bk.id = bid <;> simp [hbk, applyCancelUpdates, Function.comp]
  · intro st user bid body now hstatus
    by_cases hrole : user.role ≠ "admin" ∧ user.role ≠ "superadmin"
    · simp only [processBookingRoute, if_pos hrole]
    · cases hf : getBooking st.bookings bid with
      | none => simp only [processBookingRoute, if_neg hrole, hf]
      | some b =>
        simp only [processBookingRoute, if_neg hrole, hf]
        split_ifs with h1 h2 h3
        · exact absurd h1.1 hstatus
        · exact absurd h1.1 hstatus
        · exact absurd rfl h3
        · simp only [updateBookingRows, List.map_map]
          apply List.map_congr_left
          intro bk _
          by_cases hbk : bk.id = bid
          · have : applyProcessUpdates body user.id now bk =
                if body.status = "rejected" then
                  { bk with status := body.status, processedBy := some user.id,
                            processedDate := some now,
                            rejectionReason := setIfDefined body.rejectionReason bk.rejectionReason }
                else
                  { bk with status := body.status, processedBy := some user.id,
                            processedDate := some now } := by
              rw [applyProcessUpdates, if_neg hstatus]
            by_cases hrej : body.status = "rejected" <;>
              simp [hbk, this, hrej, Function.comp]
          · simp [hbk, Function.comp]

theorem assignments_unchanged_by_cancel_and_reject_witness :
    (((cancelBookingRoute ⟨[bkA], []⟩ ⟨"u1", "user"⟩ "B1" 3).2).bookings.map
        (fun b => (b.id, b.driverId, b.vehicleId))
      = [bkA].map (fun b => (b.id, b.driverId, b.vehicleId)))
    ∧ (("rejected" : String) ≠ "approved"
      ∧ ((processBookingRoute ⟨[bkA, bkP4], []⟩ uAdmin "B4"
            ⟨"rejected", none, none, none, some "no car"⟩ 20).2).bookings.map
            (fun b => (b.id, b.driverId, b.vehicleId))
          = [bkA, bkP4].map (fun b => (b.id, b.driverId, b.vehicleId))) :=
  ⟨(assignments_unchanged_by_cancel_and_reject.1 ⟨[bkA], []⟩ ⟨"u1", "user"⟩ "B1" 3),
   by decide,
   (assignments_unchanged_by_cancel_and_reject.2 ⟨[bkA, bkP4], []⟩ uAdmin "B4"
      ⟨"rejected", none, none, none, some "no car"⟩ 20 (by decide))⟩

/-- Claim C7, counterexample to the unamended claim: after the reachable run
create (`B9`, plain trip body) → approve (driver `d1`, vehicle `v1`) →
cancel by the owner, the stored reservation has status `'dibatalkan'` — not
`'approved'` — yet still holds both assignments. -/
theorem reachable_cancelled_booking_keeps_assignment :
    (getBooking stRun3.bookings "B9").map (fun b => (b.status, b.driverId, b.vehicleId))
        = some ("dibatalkan", some "d1", some "v1")
    ∧ ("dibatalkan" : String) ≠ "approved" := by
  exact ⟨by decide, by decide⟩

/-- Claim C9, behaviour at the failing input: with one cancelled booking the
runtime stats object gains a fourth key `dibatalkan` (the claim and the
declared TypeScript return type allow only the three keys), and with one
active and one deactivated vehicle the availability pair is `1/1` — both
numerator and denominator come from `getAllVehicles()`, which pre-filters
`isActive`, not `activeCount/totalCount = 1/2`.  The zero-row tolerance part
of the claim does hold. -/
theorem getBookingStats_runtime_divergence :
    getBookingStats [bkC] =
        [("pending", 0), ("approved", 0), ("rejected", 0), ("dibatalkan", 1)]
    ∧ (statsRoute [bkC] [vActive, vInactive]).2 = (1, 1)
    ∧ [vActive, vInactive].length = 2
    ∧ ([vActive, vInactive].filter (fun v => v.isActive)).length = 1
    ∧ getBookingStats [] = [("pending", 0), ("approved", 0), ("rejected", 0)]
    ∧ getBookingStats [bkA, bkC, bkP] =
        [("pending", 1), ("approved", 1), ("rejected", 0), ("dibatalkan", 1)] := by
  refine ⟨by decide, by decide, by decide, by decide, by decide, by decide⟩


theorem lookup_map_overwrite (k : String) (v : Nat) (m : List (String × Nat)) :
    List.lookup k (m.map (fun p => if p.1 == k then (k, v) else p)) =
      (List.lookup k m).map (fun _ => v) := by
  induction m with
  | nil => simp
  | cons p rest ih =>
    rw [List.map_cons]
    by_cases h : p.1 = k
    · have hb : (p.1 == k) = true := by simpa using h
      have hb2 : (k == p.1) = true := by simpa using h.symm
      rw [if_pos hb]
      simp [List.lookup, hb2]
    · have hb : (p.1 == k) = false := beq_eq_false_iff_ne.mpr h
      have hb2 : (k == p.1) = false := beq_eq_false_iff_ne.mpr (fun he => h he.symm)
      rw [if_neg (by simp [hb])]
      simp only [List.lookup, hb2]
      exact ih

theorem lookup_map_overwrite_other (k q : String) (v : Nat) (m : List (String × Nat))
    (hne : q ≠ k) :
    List.lookup q (m.map (fun p => if p.1 == k then (k, v) else p)) =
      List.lookup q m := by
  induction m with
  | nil => rfl
  | cons p rest ih =>
    rw [List.map_cons]
    by_cases h : p.1 = k
    · have hb : (p.1 == k) = true := by simpa using h
      have hq : (q == k) = false := beq_eq_false_iff_ne.mpr hne
      have hq2 : (q == p.1) = false := beq_eq_false_iff_ne.mpr (fun he => hne (he.trans h))
      rw [if_pos hb]
      simp only [List.lookup, hq, hq2]
      exact ih
    · have hb : (p.1 == k) = false := beq_eq_false_iff_ne.mpr h
      rw [if_neg (by simp [hb])]
      cases hqq : (q == p.1)
      · simp only [List.lookup, hqq]
        exact ih
      · simp only [List.lookup, hqq]

theorem lookup_append_single (k : String) (v : Nat) (m : List (String × Nat)) :
    List.lookup k (m ++ [(k, v)]) =
      match List.lookup k m with
      | some x => some x
      | none => some v := by
  induction m with
  | nil => simp [List.lookup]
  | cons p rest ih =>
    cases hqq : (k == p.1)
    · simp [List.lookup, hqq, ih]
    · simp [List.lookup, hqq]

theorem lookup_append_single_other (q k : String) (v : Nat) (m : List (String × Nat))
    (hne : q ≠ k) :
    List.lookup q (m ++ [(k, v)]) = List.lookup q m := by
  induction m with
  | nil =>
    have hq : (q == k) = false := beq_eq_false_iff_ne.mpr hne
    simp [List.lookup, hq]
  | cons p rest ih =>
    cases hqq : (q == p.1)
    · simp [List.lookup, hqq, ih]
    · simp [List.lookup, hqq]

theorem any_true_lookup_some (k : String) (m : List (String × Nat))
    (h : m.any (fun p => p.1 == k) = true) : ∃ x, List.lookup k m = some x := by
  induction m with
  | nil => simp at h
  | cons p rest ih =>
    by_cases hp : p.1 = k
    · have hb : (k == p.1) = true := by simpa using hp.symm
      exact ⟨p.2, by simp [List.lookup, hb]⟩
    · have hb : (k == p.1) = false := beq_eq_false_iff_ne.mpr (fun he => hp he.symm)
      have hrest : rest.any (fun p => p.1 == k) = true := by
        simp only [List.any_cons, Bool.or_eq_true] at h
        rcases h with h | h
        · exact absurd (by simpa using h) hp
        · exact h
      obtain ⟨x, hx⟩ := ih hrest
      exact ⟨x, by simp [List.lookup, hb, hx]⟩

theorem any_false_lookup_none (k : String) (m : List (String × Nat))
    (h : m.any (fun p => p.1 == k) = false) : List.lookup k m = none := by
  induction m with
  | nil => rfl
  | cons p rest ih =>
    rw [List.any_cons] at h
    have h1 : (p.1 == k) = false := by
      cases hpk : (p.1 == k)
      · rfl
      · rw [hpk, Bool.true_or] at h
        exact absurd h (by simp)
    have h2 : rest.any (fun p => p.1 == k) = false := by
      cases hr : rest.any (fun p => p.1 == k)
      · rfl
      · rw [hr, Bool.or_true] at h
        exact absurd h (by simp)
    have hb : (k == p.1) = false :=
      beq_eq_false_iff_ne.mpr (fun he => (beq_eq_false_iff_ne.mp h1) he.symm)
    simp [List.lookup, hb, ih h2]

theorem lookup_setStatKey_self (k : String) (v : Nat) (m : List (String × Nat)) :
    List.lookup k (setStatKey m k v) = some v := by
  rw [setStatKey]
  cases hany : m.any (fun p => p.1 == k)
  · rw [if_neg (by simp), lookup_append_single, any_false_lookup_none k m hany]
  · rw [if_pos rfl, lookup_map_overwrite]
    obtain ⟨x, hx⟩ := any_true_lookup_some k m hany
    rw [hx]
    rfl

theorem lookup_setStatKey_other (q k : String) (v : Nat) (m : List (String × Nat))
    (hne : q ≠ k) : List.lookup q (setStatKey m k v) = List.lookup q m := by
  rw [setStatKey]
  cases hany : m.any (fun p => p.1 == k)
  · rw [if_neg (by simp), lookup_append_single_other q k v m hne]
  · rw [if_pos rfl, lookup_map_overwrite_other k q v m hne]

theorem foldl_statsFoldStep_no_key (k : String) (cs : List (String × Nat)) :
    ∀ m : List (String × Nat), (∀ c, (k, c) ∉ cs) →
      List.lookup k (cs.foldl statsFoldStep m) = List.lookup k m := by
  induction cs with
  | nil => intro m _; rfl
  | cons sc rest ih =>
    intro m h
    rw [List.foldl_cons, ih _ (fun c hc => h c (List.mem_cons_of_mem _ hc))]
    rw [statsFoldStep]
    by_cases hcond : sc.1 ≠ "" ∧ sc.2 ≠ 0
    · rw [if_pos hcond]
      refine lookup_setStatKey_other k sc.1 sc.2 m (fun he => h sc.2 ?_)
      have hsc : sc = (k, sc.2) := by
        rw [he]
      rw [← hsc]
      exact List.mem_cons_self _ _
    · rw [if_neg hcond]

theorem foldl_statsFoldStep_key_once (k : String) (c : Nat)
    (cs1 cs2 m : List (String × Nat))
    (h2 : ∀ c2, (k, c2) ∉ cs2) (hk : k ≠ "") (hc : c ≠ 0) :
    List.lookup k ((cs1 ++ (k, c) :: cs2).foldl statsFoldStep m) = some c := by
  rw [List.foldl_append, List.foldl_cons, foldl_statsFoldStep_no_key k cs2 _ h2]
  rw [statsFoldStep, if_pos ⟨hk, hc⟩, lookup_setStatKey_self]

theorem getBookingStats_lookup (bs : List Booking) (k : String)
    (hk0 : List.lookup k [("pending", 0), ("approved", 0), ("rejected", 0)] =
      some 0)
    (hne : k ≠ "") :
    List.lookup k (getBookingStats bs) =
      some ((bs.filter (fun b => b.status == k)).length) := by
  rw [getBookingStats]
  by_cases hmem : k ∈ (bs.map (fun b => b.status)).dedup
  · have hmem2 : (k, (bs.filter (fun b => b.status == k)).length) ∈ statusCounts bs := by
      rw [statusCounts]
      exact List.mem_map.mpr ⟨k, hmem, rfl⟩
    obtain ⟨cs1, cs2, hsplit⟩ := List.append_of_mem hmem2
    have hnodup : ((statusCounts bs).map Prod.fst).Nodup := by
      have hkeys : (statusCounts bs).map Prod.fst = (bs.map (fun b => b.status)).dedup := by
        rw [statusCounts, List.map_map]
        exact List.map_id _
      rw [hkeys]
      exact List.nodup_dedup _
    rw [hsplit, List.map_append, List.map_cons] at hnodup
    have hnotail : ∀ c2, (k, c2) ∉ cs2 := by
      intro c2 hc2
      have hkin : k ∈ cs2.map Prod.fst := List.mem_map.mpr ⟨(k, c2), hc2, rfl⟩
      have hnd2 := hnodup.of_append_right
      exact (List.nodup_cons.mp hnd2).1 hkin
    have hpos : (bs.filter (fun b => b.status == k)).length ≠ 0 := by
      obtain ⟨b, hbmem, hbstat⟩ := List.mem_map.mp (List.mem_dedup.mp hmem)
      have hbf : b ∈ bs.filter (fun b => b.status == k) :=
        List.mem_filter.mpr ⟨hbmem, by simp [hbstat]⟩
      have := List.length_pos_of_mem hbf
      omega
    rw [hsplit]
    exact foldl_statsFoldStep_key_once k _ cs1 cs2 _ hnotail hne hpos
  · have hnok : ∀ c, (k, c) ∉ statusCounts bs := by
      intro c hc
      rw [statusCounts] at hc
      obtain ⟨s, hs, heq⟩ := List.mem_map.mp hc
      have hsk : s = k := congrArg Prod.fst heq
      exact hmem (hsk ▸ hs)
    rw [foldl_statsFoldStep_no_key k _ _ hnok, hk0]
    have hzero : (bs.filter (fun b => b.status == k)).length = 0 := by
      have hnil : bs.filter (fun b => b.status == k) = [] := by
        rw [List.filter_eq_nil_iff]
        intro b hb hstat
        exact hmem (List.mem_dedup.mpr (List.mem_map.mpr ⟨b, hb, by simpa using hstat⟩))
      rw [hnil]
      rfl
    rw [hzero]

/-- Claim C10: a successful Cancel stores the literal status `'dibatalkan'`,
a value outside the pending/approved/rejected triple; each of the three
stats buckets counts exactly the reservations with that bucket's status, so
a cancelled reservation is counted in none of them; and a second Cancel of a
cancelled reservation is always refused — the status guard rejects
`'dibatalkan'` (validation error for the owner, authorization error for
anyone else) and the store is left unchanged. -/
theorem cancel_dibatalkan_terminal :
    (∀ (st : SystemState) (user : UserAcct) (bid : String) (now : Int) (b2 : Booking),
        (cancelBookingRoute st user bid now).1 = CancelResult.ok b2 →
        b2.status = "dibatalkan")
    ∧ (("dibatalkan" : String) ≠ "pending" ∧ ("dibatalkan" : String) ≠ "approved"
        ∧ ("dibatalkan" : String) ≠ "rejected")
    ∧ (∀ bs : List Booking,
        List.lookup "pending" (getBookingStats bs) =
            some ((bs.filter (fun b => b.status == "pending")).length)
        ∧ List.lookup "approved" (getBookingStats bs) =
            some ((bs.filter (fun b => b.status == "approved")).length)
        ∧ List.lookup "rejected" (getBookingStats bs) =
            some ((bs.filter (fun b => b.status == "rejected")).length))
    ∧ (∀ (st : SystemState) (user : UserAcct) (bid : String) (now : Int) (b : Booking),
        getBooking st.bookings bid = some b → b.status = "dibatalkan" →
        ((cancelBookingRoute st user bid now).1 =
            CancelResult.validationError "Only pending or approved bookings can be cancelled"
          ∨ (cancelBookingRoute st user bid now).1 = CancelResult.authorizationError)
        ∧ (cancelBookingRoute st user bid now).2 = st) := by
  refine ⟨?_, ⟨by decide, by decide, by decide⟩, ?_, ?_⟩
  · intro st user bid now b2 h
    cases hf : getBooking st.bookings bid with
    | none =>
      simp only [cancelBookingRoute, hf] at h
      simp at h
    | some b =>
      simp only [cancelBookingRoute, hf] at h
      split_ifs at h with h1 h2 h3
      simp only [CancelResult.ok.injEq] at h
      subst h
      rfl
  · intro bs
    exact ⟨getBookingStats_lookup bs "pending" (by decide) (by decide),
      getBookingStats_lookup bs "approved" (by decide) (by decide),
      getBookingStats_lookup bs "rejected" (by decide) (by decide)⟩
  · intro st user bid now b hf hstat
    simp only [cancelBookingRoute, hf]
    by_cases hown : b.userId = user.id
    · have hguard : b.status ≠ "pending" ∧ b.status ≠ "approved" := by
        rw [hstat]
        exact ⟨by decide, by decide⟩
      rw [if_neg (by simp [hown]), if_pos hguard]
      exact ⟨Or.inl rfl, rfl⟩
    · rw [if_pos hown]
      exact ⟨Or.inr rfl, rfl⟩

theorem cancel_dibatalkan_terminal_witness :
    (applyCancelUpdates "u1" 10 bkP).status = "dibatalkan"
    ∧ (List.lookup "pending" (getBookingStats [bkC]) =
        some (([bkC].filter (fun b => b.status == "pending")).length)
      ∧ List.lookup "approved" (getBookingStats [bkC]) =
          some (([bkC].filter (fun b => b.status == "approved")).length)
      ∧ List.lookup "rejected" (getBookingStats [bkC]) =
          some (([bkC].filter (fun b => b.status == "rejected")).length))
    ∧ (((cancelBookingRoute ⟨[bkC], []⟩ ⟨"u1", "user"⟩ "B5" 0).1 =
          CancelResult.validationError "Only pending or approved bookings can be cancelled"
        ∨ (cancelBookingRoute ⟨[bkC], []⟩ ⟨"u1", "user"⟩ "B5" 0).1 =
            CancelResult.authorizationError)
      ∧ (cancelBookingRoute ⟨[bkC], []⟩ ⟨"u1", "user"⟩ "B5" 0).2 = ⟨[bkC], []⟩) :=
  ⟨cancel_dibatalkan_terminal.1 ⟨[bkP], []⟩ ⟨"u1", "user"⟩ "B3" 10
      (applyCancelUpdates "u1" 10 bkP) (by decide),
   cancel_dibatalkan_terminal.2.2.1 [bkC],
   cancel_dibatalkan_terminal.2.2.2 ⟨[bkC], []⟩ ⟨"u1", "user"⟩ "B5" 0 bkC
      (by decide) (by decide)⟩

set_option maxRecDepth 4000

theorem pad3_facts : ∀ k : Nat, k < 1000 →
    (pad3 k).length = 3 ∧ (∀ c ∈ pad3 k, 48 ≤ c.toNat ∧ c.toNat ≤ 57) ∧
      jsParseInt (pad3 k) = k := by decide

theorem strLtB_append_left (p s t : List Char) :
    strLtB (p ++ s) (p ++ t) = strLtB s t := by
  induction p with
  | nil => rfl
  | cons a rest ih =>
    simp only [List.cons_append, strLtB]
    rw [if_neg (Nat.lt_irrefl _), if_neg (Nat.lt_irrefl _)]
    exact ih

theorem strLtB_three_iff (a b c d e f : Char)
    (ha : 48 ≤ a.toNat ∧ a.toNat ≤ 57) (hb : 48 ≤ b.toNat ∧ b.toNat ≤ 57)
    (hc : 48 ≤ c.toNat ∧ c.toNat ≤ 57) (hd : 48 ≤ d.toNat ∧ d.toNat ≤ 57)
    (he : 48 ≤ e.toNat ∧ e.toNat ≤ 57) (hf : 48 ≤ f.toNat ∧ f.toNat ≤ 57) :
    (strLtB [a, b, c] [d, e, f] = true ↔
      jsParseInt [a, b, c] < jsParseInt [d, e, f]) := by
  simp only [jsParseInt, jsParseIntDigits, if_pos ha, if_pos hb, if_pos hc,
    if_pos hd, if_pos he, if_pos hf]
  simp only [strLtB]
  split_ifs <;> simp <;> omega

theorem strLtB_pad3_iff (p : List Char) (j k : Nat) (hj : j < 1000) (hk : k < 1000) :
    (strLtB (p ++ pad3 j) (p ++ pad3 k) = true ↔ j < k) := by
  rw [strLtB_append_left]
  obtain ⟨hj3, hjd, hjv⟩ := pad3_facts j hj
  obtain ⟨hk3, hkd, hkv⟩ := pad3_facts k hk
  obtain ⟨a, b, c, hjl⟩ := List.length_eq_three.mp hj3
  obtain ⟨d, e, f, hkl⟩ := List.length_eq_three.mp hk3
  rw [hjl] at hjd hjv
  rw [hkl] at hkd hkv
  rw [hjl, hkl, strLtB_three_iff a b c d e f
    (hjd a (by simp)) (hjd b (by simp)) (hjd c (by simp))
    (hkd d (by simp)) (hkd e (by simp)) (hkd f (by simp)), hjv, hkv]

theorem natMaxList_eq_none : ∀ l : List Nat, natMaxList l = none → l = [] := by
  intro l h
  cases l with
  | nil => rfl
  | cons k rest =>
    simp only [natMaxList] at h
    cases hr : natMaxList rest with
    | none =>
      simp only [hr] at h
      cases h
    | some m =>
      simp only [hr] at h
      split_ifs at h

theorem natMaxList_mem : ∀ (l : List Nat) (m : Nat), natMaxList l = some m → m ∈ l := by
  intro l
  induction l with
  | nil => intro m h; cases h
  | cons k rest ih =>
    intro m h
    simp only [natMaxList] at h
    cases hr : natMaxList rest with
    | none =>
      simp only [hr, Option.some.injEq] at h
      subst h
      exact List.mem_cons_self _ _
    | some m2 =>
      simp only [hr] at h
      by_cases hlt : m2 < k
      · rw [if_pos hlt, Option.some.injEq] at h
        subst h
        exact List.mem_cons_self _ _
      · rw [if_neg hlt, Option.some.injEq] at h
        subst h
        exact List.mem_cons_of_mem _ (ih _ hr)

theorem natMaxList_ge : ∀ (l : List Nat) (x : Nat), x ∈ l →
    ∀ m : Nat, natMaxList l = some m → x ≤ m := by
  intro l
  induction l with
  | nil => intro x hx; cases hx
  | cons k rest ih =>
    intro x hx m h
    simp only [natMaxList] at h
    cases hr : natMaxList rest with
    | none =>
      have hrest : rest = [] := natMaxList_eq_none rest hr
      simp only [hr, Option.some.injEq] at h
      subst h
      subst hrest
      rcases List.mem_cons.mp hx with rfl | hx2
      · exact Nat.le_refl _
      · cases hx2
    | some m2 =>
      simp only [hr] at h
      by_cases hlt : m2 < k
      · rw [if_pos hlt, Option.some.injEq] at h
        subst h
        rcases List.mem_cons.mp hx with rfl | hx2
        · exact Nat.le_refl _
        · exact Nat.le_of_lt (Nat.lt_of_le_of_lt (ih x hx2 m2 hr) hlt)
      · rw [if_neg hlt, Option.some.injEq] at h
        subst h
        rcases List.mem_cons.mp hx with rfl | hx2
        · exact Nat.le_of_not_lt hlt
        · exact ih x hx2 m2 hr

theorem latestByIdDesc_map_pad3 (p : List Char) :
    ∀ l : List Nat, (∀ k ∈ l, k < 1000) →
      latestByIdDesc (l.map (fun k => p ++ pad3 k)) =
        (natMaxList l).map (fun k => p ++ pad3 k) := by
  intro l
  induction l with
  | nil => intro _; rfl
  | cons k rest ih =>
    intro hl
    have ihr := ih (fun x hx => hl x (List.mem_cons_of_mem _ hx))
    cases hm : natMaxList rest with
    | none =>
      have hlat : latestByIdDesc (rest.map (fun k => p ++ pad3 k)) = none := by
        rw [ihr, hm]
        rfl
      simp only [List.map_cons, latestByIdDesc, natMaxList, hlat, hm]
      rfl
    | some m =>
      have hmlt : m < 1000 := hl m (List.mem_cons_of_mem _ (natMaxList_mem rest m hm))
      have hklt : k < 1000 := hl k (List.mem_cons_self _ _)
      have hlat : latestByIdDesc (rest.map (fun k => p ++ pad3 k)) =
          some (p ++ pad3 m) := by
        rw [ihr, hm]
        rfl
      simp only [List.map_cons, latestByIdDesc, natMaxList, hlat, hm, Option.map_some']
      by_cases hlt : m < k
      · rw [if_pos ((strLtB_pad3_iff p m k hmlt hklt).mpr hlt), if_pos hlt]
        rfl
      · rw [if_neg (fun hcon => hlt ((strLtB_pad3_iff p m k hmlt hklt).mp hcon)), if_neg hlt]
        rfl

theorem isPrefixOf_append_self : ∀ p x : List Char, p.isPrefixOf (p ++ x) = true := by
  intro p x
  induction p with
  | nil => simp [List.isPrefixOf]
  | cons a rest ih => simp [List.isPrefixOf, ih]

/-- Claim C4: with `currentYear` the 2-digit year prefix and the codes for
that year being exactly the well-formed codes `prefix ++ pad3 k` for the
suffixes in `suffixes` (each between 1 and 998, the range in which the
source's zero-padding and `parseInt` round-trip and no overflow occurs),
`generateBookingId` returns the prefix concatenated with the 3-digit
zero-padded successor of the numerically largest existing suffix, returns
suffix `001` when the year has no codes, and never returns a code already in
the table — so sequential allocation within a year is strictly increasing
and collision-free, and a new year restarts at `001` regardless of other
years' codes. -/
theorem generateBookingId_spec (p : List Char) (ids : List (List Char))
    (suffixes : List Nat)
    (hp : p.length = 2)
    (hmatch : ids.filter (fun s => p.isPrefixOf s) =
      suffixes.map (fun k => p ++ pad3 k))
    (hrange : ∀ k ∈ suffixes, 1 ≤ k ∧ k ≤ 998) :
    generateBookingId p ids = p ++ pad3 ((natMaxList suffixes).getD 0 + 1)
    ∧ (∀ k ∈ suffixes, k ≤ (natMaxList suffixes).getD 0)
    ∧ (suffixes = [] → generateBookingId p ids = p ++ ('0' :: '0' :: '1' :: []))
    ∧ generateBookingId p ids ∉ ids := by
  have hbound : ∀ k ∈ suffixes, k < 1000 := by
    intro k hk
    have := hrange k hk
    omega
  have hlat : latestByIdDesc (ids.filter (fun s => p.isPrefixOf s)) =
      (natMaxList suffixes).map (fun k => p ++ pad3 k) := by
    rw [hmatch]
    exact latestByIdDesc_map_pad3 p suffixes hbound
  cases hmax : natMaxList suffixes with
  | none =>
    have hsfx : suffixes = [] := natMaxList_eq_none _ hmax
    have hgen : generateBookingId p ids = p ++ pad3 1 := by
      simp only [generateBookingId, hlat, hmax, Option.map_none']
    refine ⟨?_, ?_, ?_, ?_⟩
    · rw [hgen]
      rfl
    · intro k hk
      rw [hsfx] at hk
      cases hk
    · intro _
      rw [hgen]
      rfl
    · intro hin
      have hfil : generateBookingId p ids ∈ ids.filter (fun s => p.isPrefixOf s) :=
        List.mem_filter.mpr ⟨hin, by rw [hgen]; exact isPrefixOf_append_self p _⟩
      rw [hmatch, hsfx] at hfil
      cases hfil
  | some M =>
    have hMmem : M ∈ suffixes := natMaxList_mem _ _ hmax
    have hMle : M ≤ 998 := (hrange M hMmem).2
    have hdrop : (p ++ pad3 M).drop 2 = pad3 M := by
      rw [← hp]
      exact List.drop_left _ _
    have hgen : generateBookingId p ids = p ++ pad3 (M + 1) := by
      simp only [generateBookingId, hlat, hmax, Option.map_some', hdrop,
        (pad3_facts M (by omega)).2.2]
    refine ⟨?_, ?_, ?_, ?_⟩
    · rw [hgen]
      rfl
    · intro k hk
      exact natMaxList_ge _ k hk M hmax
    · intro hempty
      rw [hempty] at hmax
      cases hmax
    · intro hin
      have hfil : generateBookingId p ids ∈ ids.filter (fun s => p.isPrefixOf s) :=
        List.mem_filter.mpr ⟨hin, by rw [hgen]; exact isPrefixOf_append_self p _⟩
      rw [hmatch] at hfil
      obtain ⟨k, hk, heq⟩ := List.mem_map.mp hfil
      rw [hgen] at heq
      have hpad : pad3 k = pad3 (M + 1) := List.append_cancel_left heq
      have hkval : k = M + 1 := by
        have h1 := (pad3_facts k (by have := hrange k hk; omega)).2.2
        have h2 := (pad3_facts (M + 1) (by omega)).2.2
        rw [← h1, ← h2, hpad]
      have := natMaxList_ge _ k hk M hmax
      omega

theorem generateBookingId_spec_witness :
    ((['2', '5'] : List Char).length = 2
      ∧ ([['2','5','0','0','3'], ['2','4','0','0','9']].filter
          (fun s => List.isPrefixOf ['2', '5'] s) =
        [3].map (fun k => ['2', '5'] ++ pad3 k))
      ∧ (∀ k ∈ [3], 1 ≤ k ∧ k ≤ 998))
    ∧ (generateBookingId ['2', '5'] [['2','5','0','0','3'], ['2','4','0','0','9']] =
        ['2', '5'] ++ pad3 ((natMaxList [3]).getD 0 + 1)
      ∧ (∀ k ∈ [3], k ≤ (natMaxList [3]).getD 0)
      ∧ (([3] : List Nat) = [] →
          generateBookingId ['2', '5'] [['2','5','0','0','3'], ['2','4','0','0','9']] =
            ['2', '5'] ++ ('0' :: '0' :: '1' :: []))
      ∧ generateBookingId ['2', '5'] [['2','5','0','0','3'], ['2','4','0','0','9']] ∉
          [['2','5','0','0','3'], ['2','4','0','0','9']]) :=
  ⟨⟨by decide, by decide, by decide⟩,
   generateBookingId_spec ['2', '5'] [['2','5','0','0','3'], ['2','4','0','0','9']]
     [3] (by decide) (by decide) (by decide)⟩
